import Mathlib

/-
Verification of the RouterTools directive-extraction-and-execution loop.

The development shallowly embeds the two conversation coordinators of the
repository:

* the base CLI assistant of `anthropic_assistant.py`
  (`AnthropicRouterAssistant.send_message_to_anthropic` /
  `process_command_request`), and
* the UI assistant of `router_ui.py`
  (`UIAnthropicRouterAssistant.send_message_to_anthropic[_async]` /
  `process_command_request_with_ui[_async]`).

Python strings are embedded as `List Char`.  The Anthropic HTTP endpoint is
an oracle indexed by the number of requests issued so far, and the remote
SSH executor (`OpenWrtManager.execute_command`) is an oracle from the value
passed to it to an `(stdout, stderr, exit_code)` triple; `execute_command`
itself never raises (it catches every exception and returns exit code 1),
so the executor oracle is total.
-/

namespace RouterTools

/-- Python `str` values are embedded as lists of characters. -/
abbrev Text := List Char

/-- The whitespace characters removed by Python `str.strip()` (ASCII part). -/
def isPySpace (c : Char) : Bool :=
  c = ' ' || c = '\t' || c = '\n' || c = '\x0d' || c = '\x0b' || c = '\x0c'

/-- Model of Python `str.strip()`: drop leading and trailing whitespace. -/
def pyStrip (s : Text) : Text :=
  ((s.dropWhile isPySpace).reverse.dropWhile isPySpace).reverse

/-- Model of Python slicing `s[-n:]`: the `n` most recent elements. -/
def takeLast {α : Type} (n : Nat) (l : List α) : List α :=
  l.drop (l.length - n)

/-- Boolean substring test, used to state where fixed text occurs. -/
def hasSubstr (pat : Text) : Text → Bool
  | [] => pat.isPrefixOf []
  | c :: rest => pat.isPrefixOf (c :: rest) || hasSubstr pat rest

/-! ### Directive extraction

Model of the `re.findall` call with pattern `\x7b[^\x7b\x7d]*"cmd"[^\x7b\x7d]*\x7d` used by
`process_command_request` and `process_command_request_with_ui[_async]`.
A match is a `{`, followed by brace-free text containing the literal
substring `"cmd"` (quotes included), followed by `}`; matches are found
left to right and do not overlap.  Since `[^{}]*` cannot cross a brace,
a match starting at some `{` must end at the very next brace, which has
to be a `}`; the scanner below implements exactly that characterisation.
-/

/-- A brace character, the class excluded by `[^{}]` in the regex. -/
def isBrace (c : Char) : Bool := c = '{' || c = '}'

/-- The literal text `"cmd"` (quotes included) required inside a match. -/
def cmdKeyLit : Text := "\"cmd\"".toList

/-- Split off the longest brace-free prefix (`[^{}]*`): returns the prefix
and the remainder, which is empty or starts with a brace. -/
def splitAtBrace : Text → Text × Text
  | [] => ([], [])
  | c :: cs =>
    if isBrace c then ([], c :: cs)
    else
      let p := splitAtBrace cs
      (c :: p.1, p.2)

/-- Fuelled scanner for the directive regex.  Every recursive call is on a
strictly shorter text, so fuel `text.length + 1` never runs out. -/
def scanGo : Nat → Text → List Text
  | 0, _ => []
  | _ + 1, [] => []
  | fuel + 1, c :: cs =>
    if c = '{' then
      let p := splitAtBrace cs
      match p.2 with
      | [] => []
      | b :: rest =>
        if b = '}' then
          if hasSubstr cmdKeyLit p.1 then
            ('{' :: p.1 ++ ['}']) :: scanGo fuel rest
          else
            scanGo fuel rest
        else
          scanGo fuel (b :: rest)
    else
      scanGo fuel cs

/-- Model of the `re.findall` directive scan over a completion text. -/
def scanMatches (text : Text) : List Text :=
  scanGo (text.length + 1) text

/-! ### JSON values and `json.loads`

The coordinators call `json.loads(json_str)` on each regex match and then
look up the key cmd.  A match is brace-free inside, so a successfully
parsed match is always a flat JSON object; the value model below covers
strings, numbers (kept as their source text), booleans and `null`.
Arrays and nested objects are not modelled: an array cannot influence any
claim under scrutiny, and a nested object cannot occur inside a match.
A parse failure models a `json.JSONDecodeError` and carries a message. -/

/-- A JSON value as produced by `json.loads` on a directive match. -/
inductive JValue : Type where
  | jstr (s : Text)
  | jnum (raw : Text)
  | jbool (b : Bool)
  | jnull
deriving DecidableEq, Repr

/-- Python `f"{v}"` rendering of a parsed JSON value. -/
def pyStr : JValue → Text
  | .jstr s => s
  | .jnum raw => raw
  | .jbool true => "True".toList
  | .jbool false => "False".toList
  | .jnull => "None".toList

/-- Python `f"{b}"` rendering of a bool. -/
def pyBoolStr (b : Bool) : Text :=
  if b then "True".toList else "False".toList

/-- The two-character JSON escapes accepted by `json.loads`. -/
def escChar (c : Char) : Option Char :=
  if c = '"' then some '"'
  else if c = '\\' then some '\\'
  else if c = '/' then some '/'
  else if c = 'b' then some '\x08'
  else if c = 'f' then some '\x0c'
  else if c = 'n' then some '\n'
  else if c = 'r' then some '\x0d'
  else if c = 't' then some '\t'
  else none

/-- Value of a hexadecimal digit, for `\uXXXX` escapes. -/
def hexVal (c : Char) : Option Nat :=
  if '0' ≤ c ∧ c ≤ '9' then some (c.toNat - '0'.toNat)
  else if 'a' ≤ c ∧ c ≤ 'f' then some (c.toNat - 'a'.toNat + 10)
  else if 'A' ≤ c ∧ c ≤ 'F' then some (c.toNat - 'A'.toNat + 10)
  else none

/-- Fuelled body of a JSON string after the opening quote: returns the
decoded content and the remainder after the closing quote. -/
def parseStringBody : Nat → Text → Except Text (Text × Text)
  | 0, _ => .error "Unterminated string".toList
  | _ + 1, [] => .error "Unterminated string".toList
  | fuel + 1, c :: rest =>
    if c = '"' then .ok ([], rest)
    else if c = '\\' then
      match rest with
      | [] => .error "Unterminated string".toList
      | e :: rest2 =>
        if e = 'u' then
          match rest2 with
          | h1 :: h2 :: h3 :: h4 :: rest3 =>
            match hexVal h1, hexVal h2, hexVal h3, hexVal h4 with
            | some a, some b, some d, some g =>
              match parseStringBody fuel rest3 with
              | .ok (s, r) => .ok (Char.ofNat (((a * 16 + b) * 16 + d) * 16 + g) :: s, r)
              | .error m => .error m
            | _, _, _, _ => .error "Invalid \\uXXXX escape".toList
          | _ => .error "Invalid \\uXXXX escape".toList
        else
          match escChar e with
          | some ec =>
            match parseStringBody fuel rest2 with
            | .ok (s, r) => .ok (ec :: s, r)
            | .error m => .error m
          | none => .error "Invalid \\escape".toList
    else if c.toNat < 32 then .error "Invalid control character".toList
    else
      match parseStringBody fuel rest with
      | .ok (s, r) => .ok (c :: s, r)
      | .error m => .error m

/-- JSON whitespace skipped by `json.loads` between tokens. -/
def skipWs (l : Text) : Text :=
  l.dropWhile fun c => c = ' ' || c = '\t' || c = '\n' || c = '\x0d'

/-- Decimal digit test for the JSON number grammar. -/
def isDig (c : Char) : Bool := '0' ≤ c && c ≤ '9'

/-- Maximal-munch match of the `json` module number regular expression
`(-?(?:0|[1-9]\d*))(\.\d+)?([eE][-+]?\d+)?`: returns the matched source
text and the remainder, or `none` when no number starts here. -/
def matchNumber (l : Text) : Option (Text × Text) :=
  let (sign, l1) :=
    match l with
    | '-' :: r => (['-'], r)
    | _ => (([] : Text), l)
  match l1 with
  | [] => none
  | d :: r =>
    if ¬ isDig d then none
    else
      let (intRest, l2) :=
        if d = '0' then (([] : Text), r)
        else (r.takeWhile isDig, r.dropWhile isDig)
      let ipart := sign ++ d :: intRest
      let (fpart, l3) :=
        match l2 with
        | '.' :: r2 =>
          let ds := r2.takeWhile isDig
          if ds = [] then (([] : Text), l2)
          else ('.' :: ds, r2.dropWhile isDig)
        | _ => (([] : Text), l2)
      let (epart, l4) :=
        match l3 with
        | e :: r3 =>
          if e = 'e' ∨ e = 'E' then
            let (es, r4) :=
              match r3 with
              | s :: r5 => if s = '+' ∨ s = '-' then ([s], r5) else (([] : Text), r3)
              | [] => (([] : Text), r3)
            let ds := r4.takeWhile isDig
            if ds = [] then (([] : Text), l3)
            else (e :: es ++ ds, r4.dropWhile isDig)
          else (([] : Text), l3)
        | [] => (([] : Text), l3)
      some (ipart ++ fpart ++ epart, l4)

/-- Parse one JSON value at the head of the text (scalar forms only; see
the section comment).  `sFuel` bounds string-body recursion. -/
def parseValue (sFuel : Nat) (l : Text) : Except Text (JValue × Text) :=
  match l with
  | '"' :: rest =>
    match parseStringBody sFuel rest with
    | .ok (s, r) => .ok (.jstr s, r)
    | .error m => .error m
  | 't' :: 'r' :: 'u' :: 'e' :: rest => .ok (.jbool true, rest)
  | 'f' :: 'a' :: 'l' :: 's' :: 'e' :: rest => .ok (.jbool false, rest)
  | 'n' :: 'u' :: 'l' :: 'l' :: rest => .ok (.jnull, rest)
  | _ =>
    match matchNumber l with
    | some (raw, rest) => .ok (.jnum raw, rest)
    | none => .error "Expecting value".toList

/-- Fuelled member loop of a JSON object: parses `"key": value` pairs
separated by commas until the closing `}`.  Each pair consumes at least
four characters, so fuel `input.length + 1` never runs out. -/
def parsePairs (sFuel : Nat) : Nat → Text → Except Text (List (Text × JValue) × Text)
  | 0, _ => .error "Expecting \x27,\x27 delimiter".toList
  | fuel + 1, l =>
    match l with
    | '"' :: rest =>
      match parseStringBody sFuel rest with
      | .error m => .error m
      | .ok (key, r1) =>
        match skipWs r1 with
        | ':' :: r2 =>
          match parseValue sFuel (skipWs r2) with
          | .error m => .error m
          | .ok (v, r3) =>
            match skipWs r3 with
            | ',' :: r4 =>
              match parsePairs sFuel fuel (skipWs r4) with
              | .ok (ps, r5) => .ok ((key, v) :: ps, r5)
              | .error m => .error m
            | '}' :: r4 => .ok ([(key, v)], r4)
            | _ => .error "Expecting \x27,\x27 delimiter".toList
        | _ => .error "Expecting \x27:\x27 delimiter".toList
    | _ => .error "Expecting property name enclosed in double quotes".toList

/-- Model of `json.loads` on a directive match: the whole text must be a
single flat JSON object, with nothing but whitespace around it. -/
def parseJson (l : Text) : Except Text (List (Text × JValue)) :=
  match skipWs l with
  | '{' :: rest =>
    match skipWs rest with
    | '}' :: r1 =>
      match skipWs r1 with
      | [] => .ok []
      | _ => .error "Extra data".toList
    | body =>
      match parsePairs (l.length + 1) (l.length + 1) body with
      | .error m => .error m
      | .ok (ps, r1) =>
        match skipWs r1 with
        | [] => .ok ps
        | _ => .error "Extra data".toList
  | _ => .error "Expecting value".toList

/-- Python `dict` built by `json.loads` keeps the last duplicate key, and
the `command` subscript reads that entry; `none` models a missing cmd key. -/
def lookupLast (k : Text) (obj : List (Text × JValue)) : Option JValue :=
  obj.foldl (fun acc p => if p.1 = k then some p.2 else acc) none

/-- The key cmd looked up by both coordinators. -/
def cmdKey : Text := "cmd".toList

/-- The directive carried by a match: `json.loads` succeeding and the
object containing the key cmd.  `none` covers both a parse failure
and a missing key. -/
def parseDirective (m : Text) : Option JValue :=
  match parseJson m with
  | .ok obj => lookupLast cmdKey obj
  | .error _ => none

/-! ### Conversation state and the Anthropic endpoint

A turn is a `{role, content}` message.  The endpoint is an oracle mapping
the index of the request (the number of requests this session has already
issued) to an outcome: a completion text, a `requests`/`aiohttp` transport
failure, a response missing a dictionary key, or a response whose
`content` array is empty (so that subscript `[0]` raises `IndexError`).
-/

/-- Message role. -/
inductive Role : Type where
  | user
  | assistant
deriving DecidableEq, Repr

/-- One conversation turn. -/
structure Turn : Type where
  role : Role
  content : Text
deriving DecidableEq, Repr

/-- Session state: stored history plus the number of requests issued. -/
structure ConvState : Type where
  history : List Turn
  calls : Nat
deriving DecidableEq, Repr

/-- Outcome of one HTTP round trip to the model endpoint. -/
inductive ApiOutcome : Type where
  | ok (text : Text)
  | requestError (msg : Text)
  | keyError (key : Text)
  | emptyContent
deriving DecidableEq, Repr

/-- Endpoint oracle: outcome of the n-th request of the session. -/
abbrev Api := Nat → ApiOutcome

/-- Python `str(e)` for the exception behind a failed outcome: a
`KeyError` renders as the quoted key, an `IndexError` from `[0]` on an
empty list renders as `list index out of range`. -/
def excStr : ApiOutcome → Text
  | .ok _ => []
  | .requestError m => m
  | .keyError k => '\x27' :: (k ++ ['\x27'])
  | .emptyContent => "list index out of range".toList

/-- What one `send_message_to_anthropic[_async]` call of the UI assistant
produces: the returned text, the new session state, and the `messages`
payload of the request it issued. -/
structure SendOut : Type where
  text : Text
  state : ConvState
  request : List Turn
deriving DecidableEq, Repr

/-- The history cap of the UI assistant: keep only the last 10 messages
when the stored history exceeds 10. -/
def trimHistory (l : List Turn) : List Turn :=
  if l.length > 10 then takeLast 10 l else l

/-- `UIAnthropicRouterAssistant.send_message_to_anthropic_async`: append
the user turn, trim the stored history to the last 10 turns, issue the
request; on success truncate the completion to 2000 characters before
storing it as the assistant turn (the caller still gets the full text),
and on any exception return a diagnostic string instead of raising. -/
def sendMessageToAnthropicAsync (api : Api) (userMessage : Text) (st : ConvState) : SendOut :=
  let h1 := st.history ++ [⟨.user, userMessage⟩]
  let h2 := trimHistory h1
  match api st.calls with
  | .ok t =>
    let truncated := if t.length > 2000 then t.take 2000 else t
    ⟨t, ⟨h2 ++ [⟨.assistant, truncated⟩], st.calls + 1⟩, h2⟩
  | o =>
    ⟨"API request failed: ".toList ++ (excStr o).take 200, ⟨h2, st.calls + 1⟩, h2⟩

/-- `UIAnthropicRouterAssistant.send_message_to_anthropic`, the blocking
variant; the `requests`-based transport differs, the session logic is the
same line for line. -/
def sendMessageToAnthropic (api : Api) (userMessage : Text) (st : ConvState) : SendOut :=
  let h1 := st.history ++ [⟨.user, userMessage⟩]
  let h2 := trimHistory h1
  match api st.calls with
  | .ok t =>
    let truncated := if t.length > 2000 then t.take 2000 else t
    ⟨t, ⟨h2 ++ [⟨.assistant, truncated⟩], st.calls + 1⟩, h2⟩
  | o =>
    ⟨"API request failed: ".toList ++ (excStr o).take 200, ⟨h2, st.calls + 1⟩, h2⟩

/-- A Python exception escaping a call of the base assistant. -/
inductive PyExc : Type where
  | indexError
deriving DecidableEq, Repr

/-- `AnthropicRouterAssistant.send_message_to_anthropic` (the base CLI
assistant): append the user turn with no trimming, issue the request,
store the full completion; only `requests.exceptions.RequestException`
and `KeyError` are caught, so an empty `content` array raises an
uncaught `IndexError` at the `[0]` subscript. -/
def baseSendMessage (api : Api) (userMessage : Text) (st : ConvState) :
    Except PyExc Text × ConvState :=
  let h1 := st.history ++ [⟨.user, userMessage⟩]
  match api st.calls with
  | .ok t => (.ok t, ⟨h1 ++ [⟨.assistant, t⟩], st.calls + 1⟩)
  | .requestError m => (.ok ("API request failed: ".toList ++ m), ⟨h1, st.calls + 1⟩)
  | .keyError k =>
    (.ok ("Unexpected API response format: ".toList ++ excStr (.keyError k)), ⟨h1, st.calls + 1⟩)
  | .emptyContent => (.error .indexError, ⟨h1, st.calls + 1⟩)

/-! ### Remote execution and the two UI coordinators -/

/-- The remote executor `OpenWrtManager.execute_command`: total, because
the Python method catches every exception and reports exit code 1. -/
abbrev Exec := JValue → Text × Text × Int

/-- The structured result dict built per executed or failed directive. -/
structure ExecResult : Type where
  command : JValue
  success : Bool
  stdout : Text
  stderr : Text
  exitCode : Int
deriving DecidableEq, Repr

/-- One invocation of the UI `command_callback` reporter. -/
structure CbEvent : Type where
  command : JValue
  success : Bool
  stdout : Text
  stderr : Text
deriving DecidableEq, Repr

/-- Loop body of `process_command_request_with_ui[_async]` for one regex
match: the reporter invocations, the commands passed to the remote
executor, and the result dicts this match contributes.  A parse failure
is reported with `success=false` and stored nowhere; an object without a
cmd key is skipped silently. -/
def stepMatch (exec : Exec) (m : Text) : List CbEvent × List JValue × List ExecResult :=
  match parseJson m with
  | .error e =>
    ([⟨.jstr m, false, [], "JSON parse error: ".toList ++ e.take 100⟩], [], [])
  | .ok obj =>
    match lookupLast cmdKey obj with
    | none => ([], [], [])
    | some v =>
      let r := exec v
      let safeStdout := if r.1 ≠ [] then r.1.take 500 else []
      let safeStderr := if r.2.1 ≠ [] then r.2.1.take 300 else []
      ([⟨v, r.2.2 == 0, safeStdout, safeStderr⟩], [v],
       [⟨v, r.2.2 == 0, (pyStrip r.1).take 1000, (pyStrip r.2.1).take 500, r.2.2⟩])

/-- One entry of the UI results summary sent back for interpretation. -/
def resultEntry (r : ExecResult) : Text :=
  "Command: ".toList ++ pyStr r.command ++ "\n".toList
    ++ "Success: ".toList ++ pyBoolStr r.success ++ "\n".toList
    ++ (if r.stdout ≠ [] then "Output: ".toList ++ r.stdout.take 500 ++ "...\n".toList else [])
    ++ (if r.stderr ≠ [] then "Error: ".toList ++ r.stderr.take 300 ++ "...\n".toList else [])
    ++ "---\n".toList

/-- The UI aggregated results summary, capped at 3000 characters with a
truncation marker. -/
def mkResultsSummary (results : List ExecResult) : Text :=
  let s := "Command execution results:\n".toList ++ (results.map resultEntry).flatten
  if s.length > 3000 then s.take 3000 ++ "\n... (results truncated)".toList else s

/-- The UI interpretation prompt embedding the user input and summary. -/
def mkInterpretationPrompt (userInput : Text) (results : List ExecResult) : Text :=
  "Based on these command results, answer: \x27".toList ++ userInput ++ "\x27\n\n".toList
    ++ mkResultsSummary results

/-- Observable output of one UI coordinator invocation. -/
structure RunOut : Type where
  finalText : Text
  state : ConvState
  events : List CbEvent
  execLog : List JValue
  results : List ExecResult
deriving DecidableEq, Repr

/-- `UIAnthropicRouterAssistant.process_command_request_with_ui_async`:
planning turn, directive scan capped at 5 matches, sequential execution
with per-directive reporting, then one interpretation turn when at least
one result was collected, otherwise the planning text unchanged. -/
def processCommandRequestWithUiAsync (api : Api) (exec : Exec)
    (userInput : Text) (st : ConvState) : RunOut :=
  let s1 := sendMessageToAnthropicAsync api userInput st
  let response := s1.text
  let ms := scanMatches response
  let ms5 := if ms.length > 5 then ms.take 5 else ms
  let events := ms5.flatMap fun m => (stepMatch exec m).1
  let execLog := ms5.flatMap fun m => (stepMatch exec m).2.1
  let results := ms5.flatMap fun m => (stepMatch exec m).2.2
  if results ≠ [] then
    let s2 := sendMessageToAnthropicAsync api (mkInterpretationPrompt userInput results) s1.state
    ⟨s2.text, s2.state, events, execLog, results⟩
  else
    ⟨response, s1.state, events, execLog, results⟩

/-- `UIAnthropicRouterAssistant.process_command_request_with_ui`, the
blocking variant of the same coordinator. -/
def processCommandRequestWithUi (api : Api) (exec : Exec)
    (userInput : Text) (st : ConvState) : RunOut :=
  let s1 := sendMessageToAnthropic api userInput st
  let response := s1.text
  let ms := scanMatches response
  let ms5 := if ms.length > 5 then ms.take 5 else ms
  let events := ms5.flatMap fun m => (stepMatch exec m).1
  let execLog := ms5.flatMap fun m => (stepMatch exec m).2.1
  let results := ms5.flatMap fun m => (stepMatch exec m).2.2
  if results ≠ [] then
    let s2 := sendMessageToAnthropic api (mkInterpretationPrompt userInput results) s1.state
    ⟨s2.text, s2.state, events, execLog, results⟩
  else
    ⟨response, s1.state, events, execLog, results⟩

/-! ### The base CLI coordinator -/

/-- Loop body of the base `process_command_request` for one match: no
reporter callback, no cap, no truncation; a parse failure is stored as a
failed result dict with exit code -1. -/
def baseStepMatch (exec : Exec) (m : Text) : List JValue × List ExecResult :=
  match parseJson m with
  | .error e =>
    ([], [⟨.jstr m, false, [], "JSON parse error: ".toList ++ e, -1⟩])
  | .ok obj =>
    match lookupLast cmdKey obj with
    | none => ([], [])
    | some v =>
      let r := exec v
      ([v], [⟨v, r.2.2 == 0, pyStrip r.1, pyStrip r.2.1, r.2.2⟩])

/-- One entry of the base results summary (untruncated outputs). -/
def baseResultEntry (r : ExecResult) : Text :=
  "Command: ".toList ++ pyStr r.command ++ "\n".toList
    ++ "Success: ".toList ++ pyBoolStr r.success ++ "\n".toList
    ++ (if r.stdout ≠ [] then "Output: ".toList ++ r.stdout ++ "\n".toList else [])
    ++ (if r.stderr ≠ [] then "Error: ".toList ++ r.stderr ++ "\n".toList else [])
    ++ "---\n".toList

/-- The base aggregated results summary: no size cap at all. -/
def mkBaseSummary (results : List ExecResult) : Text :=
  "Command execution results:\n".toList ++ (results.map baseResultEntry).flatten

/-- The base interpretation prompt. -/
def mkBasePrompt (userInput : Text) (results : List ExecResult) : Text :=
  "Based on these command results, please answer the user\x27s question: \x27".toList
    ++ userInput ++ "\x27\n\n".toList ++ mkBaseSummary results

/-- One entry of the colourised execution details the base coordinator
appends to the final response. -/
def baseDetailEntry (r : ExecResult) : Text :=
  if r.success then
    "\x1b[92m✅ Command succeeded:\x1b[0m \x1b[96m".toList ++ pyStr r.command
      ++ "\x1b[0m\n".toList
      ++ (if r.stdout ≠ [] then
            "\x1b[93m📋 Output:\x1b[0m\n\x1b[37m".toList ++ r.stdout ++ "\x1b[0m\n".toList
          else [])
  else
    "\x1b[91m❌ Command failed:\x1b[0m \x1b[96m".toList ++ pyStr r.command
      ++ "\x1b[0m\n".toList
      ++ (if r.stderr ≠ [] then
            "\x1b[91m🚨 Error:\x1b[0m \x1b[37m".toList ++ r.stderr ++ "\x1b[0m\n".toList
          else [])

/-- The execution-details block of the base coordinator. -/
def mkExecutionDetails (results : List ExecResult) : Text :=
  "\n\n".toList ++ "\x1b[90m".toList ++ List.replicate 50 '='
    ++ "\x1b[0m\n".toList ++ "\x1b[1mCOMMAND EXECUTION RESULTS:\x1b[0m\n".toList
    ++ (results.map baseDetailEntry).flatten

/-- Observable output of one base coordinator invocation. -/
structure BaseRunOut : Type where
  finalText : Text
  state : ConvState
  execLog : List JValue
  results : List ExecResult
deriving DecidableEq, Repr

/-- `AnthropicRouterAssistant.process_command_request`: planning turn,
uncapped directive scan and execution, then an interpretation turn with
the colourised details appended.  An exception escaping a send call
escapes the whole invocation. -/
def baseProcessCommandRequest (api : Api) (exec : Exec)
    (userInput : Text) (st : ConvState) : Except PyExc BaseRunOut :=
  match baseSendMessage api userInput st with
  | (.error ex, _) => .error ex
  | (.ok response, st1) =>
    let ms := scanMatches response
    let execLog := ms.flatMap fun m => (baseStepMatch exec m).1
    let results := ms.flatMap fun m => (baseStepMatch exec m).2
    if results ≠ [] then
      match baseSendMessage api (mkBasePrompt userInput results) st1 with
      | (.error ex, _) => .error ex
      | (.ok finalResponse, st2) =>
        .ok ⟨finalResponse ++ mkExecutionDetails results, st2, execLog, results⟩
    else
      .ok ⟨response, st1, execLog, results⟩

/-! ### Concrete environments used by witnesses and counterexamples -/

/-- An endpoint that always answers with a short completion. -/
def okApi : Api := fun _ => .ok "ok!".toList

/-- Session state after six user messages through the async UI send
against `okApi`, starting from an empty session. -/
def sixSends : ConvState :=
  (List.replicate 6 "hi".toList).foldl
    (fun s m => (sendMessageToAnthropicAsync okApi m s).state) ⟨[], 0⟩

/-- The §8 example planning completion with one directive. -/
def planText : Text := "Let me check. \x7b\"cmd\": \"free -h\"\x7d".toList

/-- Endpoint for the example scenario: planning then interpretation. -/
def planApi : Api := fun n => if n = 0 then .ok planText else .ok "The router is fine.".toList

/-- Executor returning the §8 example output, exit code 0. -/
def demoExec : Exec := fun _ => ("Mem: 512M used".toList, [], 0)

/-- The §8 example user input. -/
def demoUser : Text := "check memory usage".toList

/-- A fresh session. -/
def st0 : ConvState := ⟨[], 0⟩

/-- The reporter invocation produced by the example scenario. -/
def demoEvent : CbEvent := ⟨.jstr "free -h".toList, true, "Mem: 512M used".toList, []⟩

/-- A planning completion containing seven directives. -/
def text7 : Text :=
  ("\x7b\"cmd\": \"c1\"\x7d \x7b\"cmd\": \"c2\"\x7d \x7b\"cmd\": \"c3\"\x7d "
    ++ "\x7b\"cmd\": \"c4\"\x7d \x7b\"cmd\": \"c5\"\x7d \x7b\"cmd\": \"c6\"\x7d "
    ++ "\x7b\"cmd\": \"c7\"\x7d").toList

/-- Endpoint whose planning completion is `text7`. -/
def sevenDirApi : Api := fun n => if n = 0 then .ok text7 else .ok "done".toList

/-- A planning completion containing six directives. -/
def text6 : Text :=
  ("\x7b\"cmd\": \"c1\"\x7d \x7b\"cmd\": \"c2\"\x7d \x7b\"cmd\": \"c3\"\x7d "
    ++ "\x7b\"cmd\": \"c4\"\x7d \x7b\"cmd\": \"c5\"\x7d \x7b\"cmd\": \"c6\"\x7d").toList

/-- Endpoint whose planning completion is `text6`. -/
def sixDirApi : Api := fun n => if n = 0 then .ok text6 else .ok "done".toList

/-- Executor returning 1001 characters of standard output. -/
def bigExec : Exec := fun _ => (List.replicate 1001 'a', [], 0)

/-- Endpoint whose every response has an empty `content` array. -/
def emptyContentApi : Api := fun _ => .emptyContent

/-- Planning completion with a malformed directive then a valid one. -/
def mgText : Text := "Run \x7b\"cmd\": \x7d then \x7b\"cmd\": \"echo ok\"\x7d".toList

/-- Endpoint whose planning completion is `mgText`. -/
def mgApi : Api := fun n => if n = 0 then .ok mgText else .ok "done".toList

/-- Planning completion with one directive that will fail remotely. -/
def failText : Text := "Try \x7b\"cmd\": \"ls /x\"\x7d".toList

/-- Endpoint whose planning completion is `failText`. -/
def failApi : Api := fun n => if n = 0 then .ok failText else .ok "It failed.".toList

/-- Executor reporting a failure with exit code 1. -/
def failExec : Exec := fun _ => ("partial".toList, "boom".toList, 1)

/-- Planning completion whose two directive matches are both malformed. -/
def badText : Text := "a \x7b\"cmd\": \x7d b \x7b\"cmd\",\x7d".toList

/-- Endpoint whose planning completion is `badText`. -/
def badApi : Api := fun n => if n = 0 then .ok badText else .ok "done".toList

/-! ### Helper lemmas -/

theorem splitAtBrace_len (l : Text) :
    (splitAtBrace l).1.length + (splitAtBrace l).2.length = l.length := by
  induction l with
  | nil => simp [splitAtBrace]
  | cons c cs ih =>
    simp only [splitAtBrace]
    split
    · simp
    · simp only [List.length_cons]
      omega

theorem scanGo_length_le (fuel : Nat) : ∀ l : Text, (scanGo fuel l).length ≤ l.length := by
  induction fuel with
  | zero => intro l; simp [scanGo]
  | succ f ih =>
    intro l
    cases l with
    | nil => simp [scanGo]
    | cons c cs =>
      simp only [scanGo]
      split
      · have hsplit := splitAtBrace_len cs
        cases hp : (splitAtBrace cs).2 with
        | nil => simp [hp]
        | cons b rest =>
          rw [hp] at hsplit
          simp only [hp, List.length_cons] at hsplit ⊢
          split
          · split
            · have := ih rest
              simp only [List.length_cons]
              omega
            · have := ih rest
              omega
          · have := ih (b :: rest)
            simp only [List.length_cons] at this
            omega
      · have := ih cs
        simp only [List.length_cons]
        omega

theorem takeLast_length {α : Type} (n : Nat) (l : List α) :
    (takeLast n l).length = min n l.length := by
  simp [takeLast, List.length_drop]
  omega

theorem takeLast_suffix {α : Type} (n : Nat) (l : List α) :
    (takeLast n l).IsSuffix l :=
  List.drop_suffix _ _

theorem trim_length_le (l : List Turn) : (trimHistory l).length ≤ 10 := by
  unfold trimHistory
  split
  · simp [takeLast_length]
  · omega

theorem trim_suffix (l : List Turn) : (trimHistory l).IsSuffix l := by
  unfold trimHistory
  split
  · exact takeLast_suffix _ _
  · exact List.suffix_refl _

/-! ### C8 -/

/-- C8: for every input text, including truncated or unbalanced braces,
the directive scan is a total function (so it terminates and raises
nothing) and returns a finite list of candidate directive strings, here
bounded by the length of the input. -/
theorem scanMatches_total_and_bounded (t : Text) :
    (scanMatches t).length ≤ t.length := by
  have := scanGo_length_le (t.length + 1) t
  simpa [scanMatches] using this

/-! ### C1 -/

/-- C1 (amended): in the UI assistant a send trims the stored history to
the 10 most recent turns only after the user-turn append (the trimmed
history is a suffix of the appended one, so the oldest turns are dropped
first), and the following assistant-turn append can raise the stored
length to 11; the stored length never exceeds 11.  (The base CLI
assistant never trims its history at all.) -/
theorem ui_send_history_bound (api : Api) (u : Text) (st : ConvState) :
    (sendMessageToAnthropicAsync api u st).state.history.length ≤ 11 ∧
    (sendMessageToAnthropicAsync api u st).request.length ≤ 10 ∧
    (sendMessageToAnthropicAsync api u st).request.IsSuffix
      (st.history ++ [⟨Role.user, u⟩]) := by
  have hlen := trim_length_le (st.history ++ [⟨Role.user, u⟩])
  have hsuf := trim_suffix (st.history ++ [⟨Role.user, u⟩])
  unfold sendMessageToAnthropicAsync
  cases h : api st.calls <;>
    simp only [h] <;>
    refine ⟨?_, hlen, hsuf⟩ <;>
    (try simp only [List.length_append, List.length_cons, List.length_nil]) <;>
    omega

/-- C1 counterexample to the claim as stated: after the sixth send (an
append sequence of six user and six assistant turns) the stored history
of the UI assistant holds 11 turns, exceeding the claimed bound of 10. -/
theorem ui_send_history_can_reach_eleven : 10 < sixSends.history.length := by decide

/-! ### C10 -/

/-- C10: every request the UI assistant issues carries at most 10
messages (both variants trim after the user-turn append, before the
request), even though the stored history can transiently hold 11 turns
after the subsequent assistant-turn append. -/
theorem ui_request_at_most_ten_messages :
    (∀ (api : Api) (u : Text) (st : ConvState),
        (sendMessageToAnthropicAsync api u st).request.length ≤ 10 ∧
        (sendMessageToAnthropic api u st).request.length ≤ 10) ∧
    sixSends.history.length = 11 := by
  constructor
  · intro api u st
    have hlen := trim_length_le (st.history ++ [⟨Role.user, u⟩])
    refine ⟨?_, ?_⟩
    · unfold sendMessageToAnthropicAsync
      cases h : api st.calls <;> simp only [h] <;> exact hlen
    · unfold sendMessageToAnthropic
      cases h : api st.calls <;> simp only [h] <;> exact hlen
  · decide

theorem cap_eq_take (l : List Text) :
    (if l.length > 5 then l.take 5 else l) = l.take 5 := by
  split
  · rfl
  · exact (List.take_of_length_le (by omega)).symm

theorem stepMatch_execs (exec : Exec) (m : Text) :
    (stepMatch exec m).2.1 =
      match parseDirective m with
      | some v => [v]
      | none => [] := by
  cases hpj : parseJson m with
  | error e => simp [stepMatch, parseDirective, hpj]
  | ok obj =>
    cases hlk : lookupLast cmdKey obj with
    | none => simp [stepMatch, parseDirective, hpj, hlk]
    | some v => simp [stepMatch, parseDirective, hpj, hlk]

theorem processAsync_events (api : Api) (exec : Exec) (u : Text) (st : ConvState) :
    (processCommandRequestWithUiAsync api exec u st).events =
      ((scanMatches (sendMessageToAnthropicAsync api u st).text).take 5).flatMap
        (fun m => (stepMatch exec m).1) := by
  simp only [processCommandRequestWithUiAsync, cap_eq_take]
  split <;> rfl

theorem processAsync_execLog (api : Api) (exec : Exec) (u : Text) (st : ConvState) :
    (processCommandRequestWithUiAsync api exec u st).execLog =
      ((scanMatches (sendMessageToAnthropicAsync api u st).text).take 5).flatMap
        (fun m => (stepMatch exec m).2.1) := by
  simp only [processCommandRequestWithUiAsync, cap_eq_take]
  split <;> rfl

theorem processAsync_results (api : Api) (exec : Exec) (u : Text) (st : ConvState) :
    (processCommandRequestWithUiAsync api exec u st).results =
      ((scanMatches (sendMessageToAnthropicAsync api u st).text).take 5).flatMap
        (fun m => (stepMatch exec m).2.2) := by
  simp only [processCommandRequestWithUiAsync, cap_eq_take]
  split <;> rfl

theorem stepMatch_event_bounds (exec : Exec) (m : Text) :
    ∀ ev ∈ (stepMatch exec m).1, ev.stdout.length ≤ 500 ∧ ev.stderr.length ≤ 300 := by
  intro ev hev
  cases hpj : parseJson m with
  | error e =>
    simp only [stepMatch, hpj, List.mem_singleton] at hev
    subst hev
    refine ⟨by simp, ?_⟩
    have h18 : ("JSON parse error: ".toList : Text).length = 18 := rfl
    simp only [List.length_append, List.length_take, h18]
    omega
  | ok obj =>
    cases hlk : lookupLast cmdKey obj with
    | none => simp only [stepMatch, hpj, hlk, List.not_mem_nil] at hev
    | some v =>
      simp only [stepMatch, hpj, hlk, List.mem_singleton] at hev
      subst hev
      refine ⟨?_, ?_⟩ <;> · split_ifs <;> simp [List.length_take]

theorem stepMatch_result_bounds (exec : Exec) (m : Text) :
    ∀ r ∈ (stepMatch exec m).2.2,
      r.stdout.length ≤ 1000 ∧ r.stderr.length ≤ 500 ∧
        (r.success = true ↔ r.exitCode = 0) := by
  intro r hr
  cases hpj : parseJson m with
  | error e => simp only [stepMatch, hpj, List.not_mem_nil] at hr
  | ok obj =>
    cases hlk : lookupLast cmdKey obj with
    | none => simp only [stepMatch, hpj, hlk, List.not_mem_nil] at hr
    | some v =>
      simp only [stepMatch, hpj, hlk, List.mem_singleton] at hr
      subst hr
      refine ⟨by simp [List.length_take], by simp [List.length_take], ?_⟩
      simp [beq_iff_eq]

/-! ### C3 -/

/-- C3 (amended): in the UI coordinator every reporter invocation carries
at most 500 characters of stdout and 300 of stderr, and every stored
result dict (the data later embedded in the model-facing summary) carries
at most 1000 characters of stdout and 500 of stderr.  (The base CLI
coordinator stores stripped but otherwise unbounded outputs and embeds
them in its summary with no cap.) -/
theorem ui_truncation_bounds (api : Api) (exec : Exec) (u : Text) (st : ConvState) :
    (∀ ev ∈ (processCommandRequestWithUiAsync api exec u st).events,
        ev.stdout.length ≤ 500 ∧ ev.stderr.length ≤ 300) ∧
    (∀ r ∈ (processCommandRequestWithUiAsync api exec u st).results,
        r.stdout.length ≤ 1000 ∧ r.stderr.length ≤ 500) := by
  constructor
  · intro ev hev
    rw [processAsync_events] at hev
    rw [List.mem_flatMap] at hev
    obtain ⟨m, _, hm⟩ := hev
    exact stepMatch_event_bounds exec m ev hm
  · intro r hr
    rw [processAsync_results] at hr
    rw [List.mem_flatMap] at hr
    obtain ⟨m, _, hm⟩ := hr
    exact ⟨(stepMatch_result_bounds exec m r hm).1, (stepMatch_result_bounds exec m r hm).2.1⟩

/-- C3 witness: the bounds applied to the concrete example scenario. -/
theorem ui_truncation_bounds_witness :
    demoEvent ∈ (processCommandRequestWithUiAsync planApi demoExec demoUser st0).events ∧
    demoEvent.stdout.length ≤ 500 ∧ demoEvent.stderr.length ≤ 300 :=
  ⟨by decide,
   (ui_truncation_bounds planApi demoExec demoUser st0).1 demoEvent (by decide)⟩

set_option maxRecDepth 8192 in
/-- C3 counterexample to the claim as stated: the base CLI coordinator
stores 1001 characters of stdout in the result dict it embeds into its
model-facing summary, exceeding the claimed 1000-character cap. -/
theorem base_summary_unbounded_cex :
    (baseProcessCommandRequest planApi bigExec demoUser st0).map
        (fun o => o.results.map fun r => r.stdout.length) = .ok [1001] ∧
    ¬ (1001 ≤ 1000) :=
  ⟨rfl, by omega⟩

/-! ### C2 -/

theorem flatMap_execs_of_all_some (exec : Exec) :
    ∀ l : List Text, (∀ m ∈ l, (parseDirective m).isSome) →
      (l.flatMap fun m => (stepMatch exec m).2.1).map some = l.map parseDirective := by
  intro l
  induction l with
  | nil => intro _; rfl
  | cons m ms ih =>
    intro h
    have hm := h m (List.mem_cons_self m ms)
    obtain ⟨v, hv⟩ := Option.isSome_iff_exists.mp hm
    have hrest := ih fun x hx => h x (List.mem_cons_of_mem m hx)
    simp only [stepMatch_execs] at hrest ⊢
    simp [List.flatMap_cons, hv, hrest]

/-- C2 (amended): in the UI coordinator, when every directive match of
the planning completion parses to a directive, the commands sent to the
remote session are exactly the directives of the first `min(n, 5)`
matches in left-to-right order — matches beyond the fifth are dropped,
not executed.  (The base CLI coordinator applies no cap and executes all
`n` matches.) -/
theorem ui_executes_first_five_directives (api : Api) (exec : Exec) (u : Text) (st : ConvState)
    (hAll : ∀ m ∈ scanMatches (sendMessageToAnthropicAsync api u st).text,
        (parseDirective m).isSome) :
    (processCommandRequestWithUiAsync api exec u st).execLog.map some =
      ((scanMatches (sendMessageToAnthropicAsync api u st).text).take 5).map parseDirective ∧
    (processCommandRequestWithUiAsync api exec u st).execLog.length =
      min (scanMatches (sendMessageToAnthropicAsync api u st).text).length 5 := by
  have heq : (processCommandRequestWithUiAsync api exec u st).execLog.map some =
      ((scanMatches (sendMessageToAnthropicAsync api u st).text).take 5).map parseDirective := by
    rw [processAsync_execLog]
    exact flatMap_execs_of_all_some exec _
      fun m hm => hAll m (List.take_subset 5 _ hm)
  refine ⟨heq, ?_⟩
  have hlen := congrArg List.length heq
  simp only [List.length_map, List.length_take] at hlen
  omega

/-- C2 witness: with seven directives in the planning completion, the
first five execute in order. -/
theorem ui_executes_first_five_directives_witness :
    (processCommandRequestWithUiAsync sevenDirApi demoExec demoUser st0).execLog.map some =
      ((scanMatches (sendMessageToAnthropicAsync sevenDirApi demoUser st0).text).take 5).map
        parseDirective ∧
    (processCommandRequestWithUiAsync sevenDirApi demoExec demoUser st0).execLog.length =
      min (scanMatches (sendMessageToAnthropicAsync sevenDirApi demoUser st0).text).length 5 :=
  ui_executes_first_five_directives sevenDirApi demoExec demoUser st0 (by decide)

/-- C2 counterexample to the claim as stated: the base CLI coordinator
executes all six directives of a six-directive planning completion,
not `min(6, 5) = 5` of them. -/
theorem base_executes_all_directives_cex :
    (scanMatches text6).length = 6 ∧
    (baseProcessCommandRequest sixDirApi demoExec demoUser st0).map
        (fun o => o.execLog.length) = .ok 6 ∧
    ¬ (6 = min 6 5) :=
  ⟨rfl, rfl, by omega⟩

/-! ### C4 -/

/-- C4: the claim fails on the base CLI assistant.  A 200 response whose
`content` array is empty is a reply missing the completion-text field,
but `send_message_to_anthropic` only catches `RequestException` and
`KeyError`, so the `[0]` subscript raises `IndexError` and the exception
escapes the whole `process_command_request` invocation instead of being
turned into a diagnostic string. -/
theorem base_send_emptyContent_raises :
    baseProcessCommandRequest emptyContentApi demoExec demoUser st0 =
      .error .indexError := rfl

/-! ### C7 -/

/-- C7: the blocking UI coordinator and its async variant are
observationally equivalent: on the same completions (`api`) and the same
per-command execution results (`exec`) they return the same final text,
report the same callback invocations in the same order, execute the same
commands, and leave the same stored history. -/
theorem ui_sync_async_equivalent (api : Api) (exec : Exec) (u : Text) (st : ConvState) :
    processCommandRequestWithUi api exec u st =
      processCommandRequestWithUiAsync api exec u st := rfl

/-! ### C6 -/

theorem parseDirective_eq_some {m : Text} {v : JValue} (h : parseDirective m = some v) :
    ∃ obj, parseJson m = .ok obj ∧ lookupLast cmdKey obj = some v := by
  unfold parseDirective at h
  cases hpj : parseJson m with
  | error e =>
    simp only [hpj] at h
    simp at h
  | ok obj =>
    simp only [hpj] at h
    exact ⟨obj, rfl, h⟩

theorem pyBoolStr_length_le (b : Bool) : (pyBoolStr b).length ≤ 5 := by
  cases b <;> decide

theorem resultEntry_length_le (r : ExecResult) :
    (resultEntry r).length ≤ (pyStr r.command).length + 852 := by
  unfold resultEntry
  have hb := pyBoolStr_length_le r.success
  have e1 : ("Command: ".toList : Text).length = 9 := rfl
  have e2 : ("\n".toList : Text).length = 1 := rfl
  have e3 : ("Success: ".toList : Text).length = 9 := rfl
  have e4 : ("Output: ".toList : Text).length = 8 := rfl
  have e5 : ("...\n".toList : Text).length = 4 := rfl
  have e6 : ("Error: ".toList : Text).length = 7 := rfl
  have e7 : ("---\n".toList : Text).length = 4 := rfl
  split_ifs <;>
    simp only [List.length_append, List.length_take, List.length_nil,
      e1, e2, e3, e4, e5, e6, e7] <;>
    omega

theorem mkResultsSummary_single_no_cap (r : ExecResult)
    (hv : (pyStr r.command).length ≤ 2000) :
    mkResultsSummary [r] = "Command execution results:\n".toList ++ resultEntry r := by
  have hle := resultEntry_length_le r
  have h27 : ("Command execution results:\n".toList : Text).length = 27 := rfl
  unfold mkResultsSummary
  simp only [List.map_cons, List.map_nil, List.flatten_cons, List.flatten_nil,
    List.append_nil]
  rw [if_neg]
  simp only [List.length_append, h27]
  omega

/-- C6: in the UI coordinator a result dict records `success = true` if
and only if the remote exit code is 0; in particular a single directive
returning exit code 1 is stored with `success = false`, the coordinator
still requests the interpretation turn instead of aborting, and the
prompt of that turn embeds the failure (it contains `Success: False`
as long as the rendered command stays under the summary cap). -/
theorem success_iff_exit_zero :
    (∀ (api : Api) (exec : Exec) (u : Text) (st : ConvState),
        ∀ r ∈ (processCommandRequestWithUiAsync api exec u st).results,
          (r.success = true ↔ r.exitCode = 0)) ∧
    (∀ (api : Api) (exec : Exec) (u : Text) (st : ConvState) (m : Text) (v : JValue)
        (out err : Text),
        scanMatches (sendMessageToAnthropicAsync api u st).text = [m] →
        parseDirective m = some v →
        exec v = (out, err, 1) →
        (pyStr v).length ≤ 2000 →
        (processCommandRequestWithUiAsync api exec u st).results =
            [⟨v, false, (pyStrip out).take 1000, (pyStrip err).take 500, 1⟩] ∧
          (processCommandRequestWithUiAsync api exec u st).finalText =
            (sendMessageToAnthropicAsync api
              (mkInterpretationPrompt u
                [⟨v, false, (pyStrip out).take 1000, (pyStrip err).take 500, 1⟩])
              (sendMessageToAnthropicAsync api u st).state).text ∧
          ∃ s t, mkInterpretationPrompt u
              [⟨v, false, (pyStrip out).take 1000, (pyStrip err).take 500, 1⟩] =
            s ++ "Success: False".toList ++ t) := by
  constructor
  · intro api exec u st r hr
    rw [processAsync_results, List.mem_flatMap] at hr
    obtain ⟨m, _, hm⟩ := hr
    exact (stepMatch_result_bounds exec m r hm).2.2
  · intro api exec u st m v out err hms hv hexec hlen
    obtain ⟨obj, hpj, hlk⟩ := parseDirective_eq_some hv
    have hstep : stepMatch exec m =
        ([⟨v, false, if out ≠ [] then out.take 500 else [],
            if err ≠ [] then err.take 300 else []⟩], [v],
         [⟨v, false, (pyStrip out).take 1000, (pyStrip err).take 500, 1⟩]) := by
      simp [stepMatch, hpj, hlk, hexec, show ((1 : Int) == 0) = false from rfl]
    have hproc : processCommandRequestWithUiAsync api exec u st =
        ⟨(sendMessageToAnthropicAsync api
            (mkInterpretationPrompt u
              [⟨v, false, (pyStrip out).take 1000, (pyStrip err).take 500, 1⟩])
            (sendMessageToAnthropicAsync api u st).state).text,
         (sendMessageToAnthropicAsync api
            (mkInterpretationPrompt u
              [⟨v, false, (pyStrip out).take 1000, (pyStrip err).take 500, 1⟩])
            (sendMessageToAnthropicAsync api u st).state).state,
         [⟨v, false, if out ≠ [] then out.take 500 else [],
            if err ≠ [] then err.take 300 else []⟩],
         [v],
         [⟨v, false, (pyStrip out).take 1000, (pyStrip err).take 500, 1⟩]⟩ := by
      simp [processCommandRequestWithUiAsync, hms, hstep]
    refine ⟨by rw [hproc], by rw [hproc], ?_⟩
    have hsum := mkResultsSummary_single_no_cap
      ⟨v, false, (pyStrip out).take 1000, (pyStrip err).take 500, 1⟩ (by simpa using hlen)
    refine ⟨"Based on these command results, answer: \x27".toList ++ u ++ "\x27\n\n".toList
        ++ "Command execution results:\n".toList ++ "Command: ".toList ++ pyStr v
        ++ "\n".toList,
      "\n".toList
        ++ (if (pyStrip out).take 1000 ≠ [] then
              "Output: ".toList ++ ((pyStrip out).take 1000).take 500 ++ "...\n".toList
            else [])
        ++ (if (pyStrip err).take 500 ≠ [] then
              "Error: ".toList ++ ((pyStrip err).take 500).take 300 ++ "...\n".toList
            else [])
        ++ "---\n".toList, ?_⟩
    unfold mkInterpretationPrompt
    rw [hsum]
    unfold resultEntry
    rw [show ("Success: False".toList : Text) = "Success: ".toList ++ "False".toList from rfl]
    simp [pyBoolStr, List.append_assoc]

/-- C6 witness: the concrete failing-directive scenario. -/
theorem success_iff_exit_zero_witness :
    (processCommandRequestWithUiAsync failApi failExec demoUser st0).results =
        [⟨.jstr "ls /x".toList, false, (pyStrip "partial".toList).take 1000,
          (pyStrip "boom".toList).take 500, 1⟩] ∧
      (processCommandRequestWithUiAsync failApi failExec demoUser st0).finalText =
        (sendMessageToAnthropicAsync failApi
          (mkInterpretationPrompt demoUser
            [⟨.jstr "ls /x".toList, false, (pyStrip "partial".toList).take 1000,
              (pyStrip "boom".toList).take 500, 1⟩])
          (sendMessageToAnthropicAsync failApi demoUser st0).state).text ∧
      ∃ s t, mkInterpretationPrompt demoUser
          [⟨.jstr "ls /x".toList, false, (pyStrip "partial".toList).take 1000,
            (pyStrip "boom".toList).take 500, 1⟩] =
        s ++ "Success: False".toList ++ t :=
  success_iff_exit_zero.2 failApi failExec demoUser st0
    ("\x7b\"cmd\": \"ls /x\"\x7d".toList) (.jstr "ls /x".toList)
    "partial".toList "boom".toList (by decide) (by decide) rfl (by decide)

/-! ### C5 -/

/-- C5: a directive match that is not valid JSON yields a failed
directive with `success = false` and a parse-failure description — the
UI coordinator reports it to the callback, the base coordinator stores
it as a failed result dict that feeds its summary and details — and the
malformed match does not prevent a later well-formed directive in the
same completion from executing. -/
theorem malformed_directive_reported_and_skipped
    (api : Api) (exec : Exec) (u : Text) (st : ConvState)
    (bad good e : Text) (v : JValue)
    (hms : scanMatches (sendMessageToAnthropicAsync api u st).text = [bad, good])
    (hbad : parseJson bad = .error e)
    (hgood : parseDirective good = some v)
    (bapi : Api) (bu bresp bfinal : Text) (bst : ConvState)
    (hbresp : bapi bst.calls = .ok bresp)
    (hbms : scanMatches bresp = [bad, good])
    (hbfinal : bapi (bst.calls + 1) = .ok bfinal) :
    ((processCommandRequestWithUiAsync api exec u st).events.head? =
        some ⟨.jstr bad, false, [], "JSON parse error: ".toList ++ e.take 100⟩ ∧
      (processCommandRequestWithUiAsync api exec u st).execLog = [v]) ∧
    (baseProcessCommandRequest bapi exec bu bst).map
        (fun o => (o.results.head?, o.execLog)) =
      .ok (some ⟨.jstr bad, false, [], "JSON parse error: ".toList ++ e, -1⟩, [v]) := by
  obtain ⟨obj, hpj, hlk⟩ := parseDirective_eq_some hgood
  refine ⟨⟨?_, ?_⟩, ?_⟩
  · rw [processAsync_events, hms]
    simp [stepMatch, hbad]
  · rw [processAsync_execLog, hms]
    have h1 : (stepMatch exec bad).2.1 = [] := by
      rw [stepMatch_execs]
      simp [parseDirective, hbad]
    have h2 : (stepMatch exec good).2.1 = [v] := by
      rw [stepMatch_execs, hgood]
    simp [h1, h2]
  · have hbadStep : baseStepMatch exec bad =
        ([], [⟨.jstr bad, false, [], "JSON parse error: ".toList ++ e, -1⟩]) := by
      simp [baseStepMatch, hbad]
    have hgoodStep : baseStepMatch exec good =
        ([v], [⟨v, (exec v).2.2 == 0, pyStrip (exec v).1, pyStrip (exec v).2.1,
            (exec v).2.2⟩]) := by
      simp [baseStepMatch, hpj, hlk]
    unfold baseProcessCommandRequest baseSendMessage
    simp only [hbresp]
    simp only [hbms, hbadStep, hgoodStep, List.flatMap_cons, List.flatMap_nil]
    simp [hbfinal, Except.map]

/-- C5 witness: the malformed-then-valid scenario run concretely through
both coordinators. -/
theorem malformed_directive_reported_and_skipped_witness :
    ((processCommandRequestWithUiAsync mgApi demoExec demoUser st0).events.head? =
        some ⟨.jstr "\x7b\"cmd\": \x7d".toList, false, [],
          "JSON parse error: ".toList ++ ("Expecting value".toList).take 100⟩ ∧
      (processCommandRequestWithUiAsync mgApi demoExec demoUser st0).execLog =
        [.jstr "echo ok".toList]) ∧
    (baseProcessCommandRequest mgApi demoExec demoUser st0).map
        (fun o => (o.results.head?, o.execLog)) =
      .ok (some ⟨.jstr "\x7b\"cmd\": \x7d".toList, false, [],
          "JSON parse error: ".toList ++ "Expecting value".toList, -1⟩,
        [.jstr "echo ok".toList]) :=
  malformed_directive_reported_and_skipped mgApi demoExec demoUser st0
    "\x7b\"cmd\": \x7d".toList "\x7b\"cmd\": \"echo ok\"\x7d".toList
    "Expecting value".toList (.jstr "echo ok".toList)
    (by decide) rfl rfl
    mgApi demoUser mgText "done".toList st0 rfl (by decide) rfl

/-! ### C9 -/

theorem flatMap_malformed (exec : Exec) :
    ∀ l : List Text, (∀ m ∈ l, (parseJson m).isOk = false) →
      (l.flatMap fun m => (stepMatch exec m).2.2) = [] ∧
      (l.flatMap fun m => (stepMatch exec m).1).length = l.length ∧
      ∀ ev ∈ l.flatMap fun m => (stepMatch exec m).1,
        ev.success = false ∧ ev.stdout = [] ∧
          "JSON parse error: ".toList.isPrefixOf ev.stderr = true := by
  intro l
  induction l with
  | nil => exact fun _ => ⟨rfl, rfl, by simp⟩
  | cons m ms ih =>
    intro h
    have hm := h m (List.mem_cons_self m ms)
    have hex : ∃ e, parseJson m = .error e := by
      cases hx : parseJson m with
      | error e => exact ⟨e, rfl⟩
      | ok obj => rw [hx] at hm; simp [Except.isOk, Except.toBool] at hm
    obtain ⟨e, hpj⟩ := hex
    have hstep1 : (stepMatch exec m).1 =
        [⟨.jstr m, false, [], "JSON parse error: ".toList ++ e.take 100⟩] := by
      simp [stepMatch, hpj]
    have hstep2 : (stepMatch exec m).2.2 = [] := by simp [stepMatch, hpj]
    obtain ⟨ih1, ih2, ih3⟩ := ih fun x hx => h x (List.mem_cons_of_mem m hx)
    refine ⟨?_, ?_, ?_⟩
    · simp [List.flatMap_cons, hstep2, ih1]
    · simp [List.flatMap_cons, hstep1, ih2]
    · intro ev hev
      rw [List.flatMap_cons, hstep1] at hev
      rcases List.mem_append.mp hev with h1 | h2
      · rw [List.mem_singleton] at h1
        subst h1
        refine ⟨rfl, rfl, ?_⟩
        rw [List.isPrefixOf_iff_prefix]
        exact List.prefix_append _ _
      · exact ih3 ev h2

theorem processAsync_else (api : Api) (exec : Exec) (u : Text) (st : ConvState)
    (h : ((scanMatches (sendMessageToAnthropicAsync api u st).text).take 5).flatMap
        (fun m => (stepMatch exec m).2.2) = []) :
    (processCommandRequestWithUiAsync api exec u st).finalText =
      (sendMessageToAnthropicAsync api u st).text ∧
    (processCommandRequestWithUiAsync api exec u st).state =
      (sendMessageToAnthropicAsync api u st).state := by
  simp only [processCommandRequestWithUiAsync, cap_eq_take, h]
  simp

/-- C9: in the UI coordinator (both variants, which coincide) a
malformed directive match is reported once to the callback with
`success = false`, empty stdout and a parse-error description, and it is
never stored as a result; when every match is malformed, no result is
collected, so no interpretation turn is requested (the state is exactly
the one after the planning turn) and the planning text is returned
unchanged — the parse errors therefore reach no model-facing summary. -/
theorem ui_malformed_only_no_interpretation
    (api : Api) (exec : Exec) (u : Text) (st : ConvState)
    (hAll : ∀ m ∈ scanMatches (sendMessageToAnthropicAsync api u st).text,
        (parseJson m).isOk = false) :
    (processCommandRequestWithUiAsync api exec u st).results = [] ∧
    (processCommandRequestWithUiAsync api exec u st).finalText =
      (sendMessageToAnthropicAsync api u st).text ∧
    (processCommandRequestWithUiAsync api exec u st).state =
      (sendMessageToAnthropicAsync api u st).state ∧
    (processCommandRequestWithUiAsync api exec u st).events.length =
      min (scanMatches (sendMessageToAnthropicAsync api u st).text).length 5 ∧
    (∀ ev ∈ (processCommandRequestWithUiAsync api exec u st).events,
        ev.success = false ∧ ev.stdout = [] ∧
          "JSON parse error: ".toList.isPrefixOf ev.stderr = true) ∧
    processCommandRequestWithUi api exec u st =
      processCommandRequestWithUiAsync api exec u st := by
  obtain ⟨h1, h2, h3⟩ := flatMap_malformed exec
    ((scanMatches (sendMessageToAnthropicAsync api u st).text).take 5)
    (fun m hm => hAll m (List.take_subset 5 _ hm))
  obtain ⟨hfin, hstate⟩ := processAsync_else api exec u st h1
  refine ⟨by rw [processAsync_results]; exact h1, hfin, hstate, ?_, ?_, rfl⟩
  · rw [processAsync_events, h2, List.length_take]
    omega
  · intro ev hev
    rw [processAsync_events] at hev
    exact h3 ev hev

/-- C9 witness: a planning completion whose two directive matches are
both malformed, run concretely. -/
theorem ui_malformed_only_no_interpretation_witness :
    (processCommandRequestWithUiAsync badApi demoExec demoUser st0).results = [] ∧
    (processCommandRequestWithUiAsync badApi demoExec demoUser st0).finalText =
      (sendMessageToAnthropicAsync badApi demoUser st0).text ∧
    (processCommandRequestWithUiAsync badApi demoExec demoUser st0).state =
      (sendMessageToAnthropicAsync badApi demoUser st0).state ∧
    (processCommandRequestWithUiAsync badApi demoExec demoUser st0).events.length =
      min (scanMatches (sendMessageToAnthropicAsync badApi demoUser st0).text).length 5 ∧
    (∀ ev ∈ (processCommandRequestWithUiAsync badApi demoExec demoUser st0).events,
        ev.success = false ∧ ev.stdout = [] ∧
          "JSON parse error: ".toList.isPrefixOf ev.stderr = true) ∧
    processCommandRequestWithUi badApi demoExec demoUser st0 =
      processCommandRequestWithUiAsync badApi demoExec demoUser st0 :=
  ui_malformed_only_no_interpretation badApi demoExec demoUser st0 (by decide)

end RouterTools
